import Mathlib

/-!
Verification of the bookstore management system (`sistema_livraria.py`,
`app.py`) against its natural-language specification.

The two Python modules share one SQLite table `livros`
`(id AUTOINCREMENT, titulo, autor, ano_publicacao, preco)`.  We embed the
store as a list of records plus the auto-increment counter, the backup
directory as a list of `(mtime, snapshot)` pairs, CSV files as lists of
rows (each row the list of its string fields, exactly what Python's `csv`
module reads and writes), and Python's `int()` / `float()` / `str()` on
the decimal-literal fragment actually exchanged through those CSV files.
Prices are modelled as rationals: every Python float is a dyadic rational
and every decimal literal is a rational, and all arithmetic the program
performs on prices (comparison, sum, division by a count) is exact on
this fragment.
-/

namespace Livraria

/-! ### Decimal literals: Python `str` / `int()` / `float()` -/

/-- The character for a decimal digit, `chr(48 + d)`. -/
def digitChar (d : Nat) : Char :=
  match d with
  | 0 => '0' | 1 => '1' | 2 => '2' | 3 => '3' | 4 => '4'
  | 5 => '5' | 6 => '6' | 7 => '7' | 8 => '8' | _ => '9'

/-- `c` is an ASCII decimal digit. -/
def ehDigito (c : Char) : Bool := decide ('0' ≤ c) && decide (c ≤ '9')

/-- Value of a big-endian digit string (Python `int` parsing core). -/
def valDigitos (l : List Char) : Nat :=
  l.foldl (fun a c => a * 10 + (c.toNat - 48)) 0

/-- Characters of the decimal representation of `n`, as `str(n)` prints. -/
def charsNat (n : Nat) : List Char :=
  if n = 0 then ['0'] else ((Nat.digits 10 n).map digitChar).reverse

/-- `str(n)` for a natural number. -/
def renderNat (n : Nat) : String := String.mk (charsNat n)

/-- `str(n)` for an integer. -/
def renderInt (n : Int) : String :=
  if n < 0 then "-" ++ renderNat n.natAbs else renderNat n.natAbs

/-- Python `int(s)` on a digit string (no sign): `None` is `ValueError`. -/
def parseNat? (l : List Char) : Option Nat :=
  if l ≠ [] ∧ l.all ehDigito then some (valDigitos l) else none

/-- Python `int(s)`: optional minus sign then decimal digits; `none`
models `ValueError` (so `int("10.5")` and `int("abc")` fail). -/
def parseInt? (s : String) : Option Int :=
  match s.toList with
  | '-' :: r => (parseNat? r).map (fun n => -(n : Int))
  | l => (parseNat? l).map (fun n => (n : Int))

/-- Python `float(s)` on the unsigned part: digits, optionally a dot and
more digits, at least one digit overall.  Exponent forms, `inf`/`nan` and
surrounding whitespace are never produced by this program's CSV files and
are not modelled. -/
def parseFloatCorpo? (l : List Char) : Option ℚ :=
  match l.dropWhile ehDigito with
  | [] =>
    if (l.takeWhile ehDigito).isEmpty then none
    else some ((valDigitos (l.takeWhile ehDigito) : ℚ))
  | '.' :: fp =>
    if ((l.takeWhile ehDigito).isEmpty && fp.isEmpty) || !(fp.all ehDigito) then
      none
    else
      some ((valDigitos (l.takeWhile ehDigito) : ℚ)
        + (valDigitos fp : ℚ) / (10 : ℚ) ^ fp.length)
  | _ => none

/-- Python `float(s)`: `none` models `ValueError`. -/
def parseFloat? (s : String) : Option ℚ :=
  match s.toList with
  | '-' :: r => (parseFloatCorpo? r).map (fun q => -q)
  | l => parseFloatCorpo? l

/-- Least `k ≤ d` with `d ∣ 10 ^ k`, when one exists (it does whenever
`d` has only the prime factors 2 and 5, in particular for every float
denominator). -/
def expDec (d : Nat) : Option Nat :=
  (List.range (d + 1)).find? (fun k => decide (d ∣ 10 ^ k))

/-- Fractional digit block of length `k` for a remainder `r < 10 ^ k`:
zero-padded decimal digits of `r`. -/
def charsFrac (k r : Nat) : List Char :=
  List.replicate (k - (charsNat r).length) '0' ++ charsNat r

/-- `str(q)` for a non-negative price: the exact decimal rendering of the
float value, which Python's `repr` guarantees to round-trip.  (Python may
print extra forms such as `50.0` for an integer value or trim trailing
zeros; both parse back to the same rational, so we fix one exact decimal
form.) -/
def renderPreco (q : ℚ) : String :=
  match expDec q.den with
  | some k =>
    if k = 0 then renderNat ((q.num * ((10 ^ k / q.den : Nat) : Int)).toNat)
    else
      renderNat ((q.num * ((10 ^ k / q.den : Nat) : Int)).toNat / 10 ^ k)
        ++ "." ++
        String.mk
          (charsFrac k ((q.num * ((10 ^ k / q.den : Nat) : Int)).toNat % 10 ^ k))
  | none => ""

/-! ### Data model -/

/-- A row of the `livros` table. -/
structure Livro where
  id : Nat
  titulo : String
  autor : String
  ano_publicacao : Int
  preco : ℚ
deriving Repr, DecidableEq

/-- The four persisted fields of a book apart from its id. -/
def campos (l : Livro) : String × String × Int × ℚ :=
  (l.titulo, l.autor, l.ano_publicacao, l.preco)

/-- System state: the table (in id order, as `SELECT * ORDER BY id`
returns it), the next AUTOINCREMENT id, and the backup directory as
`(mtime, snapshot)` pairs. -/
structure Estado where
  livros : List Livro
  nextId : Nat
  backups : List (Nat × List Livro)
deriving Repr, DecidableEq

/-- The empty freshly-initialised system (AUTOINCREMENT starts at 1). -/
def estadoInicial : Estado := ⟨[], 1, []⟩

/-! ### Backup manager (`_fazer_backup` / `fazer_backup`,
`_limpar_backups_antigos` / `limpar_backups_antigos`) -/

/-- Keep only the 5 most recent backups: sort the directory by
modification time, newest first, and drop everything past the fifth. -/
def limpar_backups_antigos (dir : List (Nat × List Livro)) :
    List (Nat × List Livro) :=
  (dir.insertionSort (fun a b => b.1 ≤ a.1)).take 5

/-- `shutil.copy2` the database to `backup_livraria_<timestamp>.db`
(overwriting any backup carrying the same timestamp name), then run
retention.  `t` is the snapshot's modification time. -/
def fazer_backup (t : Nat) (st : Estado) : Estado :=
  { st with
    backups :=
      limpar_backups_antigos
        ((t, st.livros) :: st.backups.filter (fun e => ¬ e.1 = t)) }

/-! ### Book repository -/

/-- `adicionar_livro(titulo, autor, ano_publicacao, preco)`
(`sistema_livraria.py:84`; the `/api/livros` POST handler performs the
identical conversions and checks).  `hoje` is `datetime.now().year`, `t`
the backup timestamp.  Returns the success flag and the new state. -/
def adicionar_livro (hoje : Int) (t : Nat) (titulo autor ano preco : String)
    (st : Estado) : Bool × Estado :=
  match parseInt? ano, parseFloat? preco with
  | some a, some p =>
    if a < 0 ∨ hoje < a then (false, st)
    else if p < 0 then (false, st)
    else
      let st1 := fazer_backup t st
      (true,
        { st1 with
          livros := st1.livros ++ [⟨st1.nextId, titulo, autor, a, p⟩],
          nextId := st1.nextId + 1 })
  | _, _ => (false, st)

/-- `atualizar_preco(id_livro, novo_preco)` (`sistema_livraria.py:144`;
the `/api/livros/<id>` PUT handler is identical up to response format). -/
def atualizar_preco (t : Nat) (id : Nat) (novo_preco : String)
    (st : Estado) : Bool × Estado :=
  match parseFloat? novo_preco with
  | none => (false, st)
  | some p =>
    if p < 0 then (false, st)
    else
      let st1 := fazer_backup t st
      match st1.livros.find? (fun l => l.id == id) with
      | none => (false, st1)
      | some _ =>
        (true,
          { st1 with
            livros := st1.livros.map
              (fun l => if l.id == id then { l with preco := p } else l) })

/-- `remover_livro(id_livro)` (`sistema_livraria.py:175`; the DELETE
handler is identical up to response format). -/
def remover_livro (t : Nat) (id : Nat) (st : Estado) : Bool × Estado :=
  let st1 := fazer_backup t st
  match st1.livros.find? (fun l => l.id == id) with
  | none => (false, st1)
  | some _ =>
    (true, { st1 with livros := st1.livros.filter (fun l => ¬ l.id == id) })

/-! ### SQLite `LIKE` and search -/

/-- SQLite folds the 26 upper-case ASCII letters for `LIKE`. -/
def minusculaAscii (c : Char) : Char :=
  if 'A' ≤ c ∧ c ≤ 'Z' then Char.ofNat (c.toNat + 32) else c

/-- SQLite `LIKE` pattern matching (default, ASCII case-insensitive):
`%` matches any run of characters — rendered as trying every suffix of
the text — `_` any single character, anything else itself up to ASCII
case. -/
def casaLike : List Char → List Char → Bool
  | [], ts => ts.isEmpty
  | p :: ps, ts =>
    if p = '%' then
      (List.range (ts.length + 1)).any (fun n => casaLike ps (ts.drop n))
    else
      match ts with
      | [] => false
      | t :: ts2 =>
        (if p = '_' then true else minusculaAscii p == minusculaAscii t)
          && casaLike ps ts2

/-- `texto LIKE padrao` on strings. -/
def like (padrao texto : String) : Bool := casaLike padrao.toList texto.toList

/-- `buscar_por_autor(autor)` (`sistema_livraria.py:197`, `app.py:209`):
`SELECT * FROM livros WHERE autor LIKE '%' || autor || '%' ORDER BY
titulo` (BINARY collation for the ordering). -/
def buscar_por_autor (autor : String) (st : Estado) : List Livro :=
  (st.livros.filter (fun l => like ("%" ++ autor ++ "%") l.autor)).insertionSort
    (fun a b => a.titulo ≤ b.titulo)

/-! ### Statistics (`obter_estatisticas`, `gerar_relatorio_html`) -/

/-- The `CASE` expression labelling a price with its band. -/
def faixa (p : ℚ) : String :=
  if p < 20 then "Até R$ 20"
  else if p < 50 then "R$ 20-50"
  else if p < 100 then "R$ 50-100"
  else "Acima de R$ 100"

/-- The four band labels in SQLite group-key (BINARY) order. -/
def faixasOrdem : List String :=
  ["Acima de R$ 100", "Até R$ 20", "R$ 20-50", "R$ 50-100"]

/-- Books carrying band label `f`. -/
def contagemFaixa (livros : List Livro) (f : String) : Nat :=
  (livros.filter (fun l => faixa l.preco == f)).length

/-- The `GROUP BY faixa` query of `obter_estatisticas` (`app.py:559`):
one `(label, count)` row per group that actually occurs — `GROUP BY`
emits no row for an empty band. -/
def distribuicao_precos (livros : List Livro) : List (String × Nat) :=
  (faixasOrdem.filter
      (fun f => livros.any (fun l => faixa l.preco == f))).map
    (fun f => (f, contagemFaixa livros f))

/-- `valor_total` of `gerar_relatorio_html` (`app.py:366`). -/
def valor_total (livros : List Livro) : ℚ := (livros.map (fun l => l.preco)).sum

/-- `preco_medio = valor_total / total_livros` (`app.py:367`). -/
def preco_medio (livros : List Livro) : ℚ :=
  valor_total livros / (livros.length : ℚ)

/-! ### CSV export / import -/

/-- The header row both exporters write. -/
def cabecalhoCsv : List String :=
  ["ID", "Título", "Autor", "Ano de Publicação", "Preço"]

/-- The CSV row `csv.writer` produces for one book: `str()` of each
column. -/
def linhaCsv (l : Livro) : List String :=
  [renderNat l.id, l.titulo, l.autor, renderInt l.ano_publicacao,
    renderPreco l.preco]

/-- `exportar_para_csv` (`sistema_livraria.py:228`; the API exporter
writes the same rows to a timestamped name): `none` when there are no
books (`✗ Nenhum livro para exportar`), otherwise the header row followed
by one row per book in id order. -/
def exportar_para_csv (livros : List Livro) : Option (List (List String)) :=
  if livros.isEmpty then none else some (cabecalhoCsv :: livros.map linhaCsv)

/-- Accumulator of the CLI import loop. -/
structure AcumCli where
  qtdImportados : Nat
  livros : List Livro
  nextId : Nat
deriving Repr, DecidableEq

/-- One data row of the CLI import loop (`sistema_livraria.py:273`):
rows with fewer than 5 fields are silently skipped; a 5-field row is
unpacked, its id ignored, year and price parsed, and inserted — the CLI
variant performs no range validation; any `ValueError` (extra fields on
unpacking, unparseable year or price) is printed and the row skipped. -/
def passo_cli (row : List String) (a : AcumCli) : AcumCli :=
  if 5 ≤ row.length then
    match row with
    | [_, titulo, autor, ano, preco] =>
      match parseInt? ano, parseFloat? preco with
      | some an, some pr =>
        { a with
          qtdImportados := a.qtdImportados + 1,
          livros := a.livros ++ [⟨a.nextId, titulo, autor, an, pr⟩],
          nextId := a.nextId + 1 }
      | _, _ => a
    | _ => a
  else a

/-- `carregar_csv` (`sistema_livraria.py:252`): backup, then
`next(reader)` — which raises `StopIteration`, uncaught, on a CSV with no
rows at all (the `error` carries the state after the backup already
taken) — then the row loop.  Returns the imported count and new state. -/
def carregar_csv (t : Nat) (rows : List (List String)) (st : Estado) :
    Except Estado (Nat × Estado) :=
  let st1 := fazer_backup t st
  match rows with
  | [] => Except.error st1
  | _ :: dados =>
    let a := dados.foldl (fun a r => passo_cli r a) ⟨0, st1.livros, st1.nextId⟩
    Except.ok (a.qtdImportados, { st1 with livros := a.livros, nextId := a.nextId })

/-- The error messages the API import accumulates (each carried with its
line number `idx`). -/
inductive MsgErro where
  | conversao
  | anoInvalido (a : Int)
  | precoInvalido (p : ℚ)
deriving Repr, DecidableEq

/-- Accumulator of the API import loop. -/
structure AcumApi where
  qtdImportados : Nat
  erros : List (Nat × MsgErro)
  livros : List Livro
  nextId : Nat
deriving Repr, DecidableEq

/-- One data row of the API import loop (`app.py:307`): short rows are
silently skipped; unpack/parse failures and range-validation failures
append a line-numbered error; valid rows are inserted. -/
def passo_api (hoje : Int) (idx : Nat) (row : List String) (a : AcumApi) :
    AcumApi :=
  if 5 ≤ row.length then
    match row with
    | [_, titulo, autor, ano, preco] =>
      match parseInt? ano with
      | none => { a with erros := a.erros ++ [(idx, .conversao)] }
      | some an =>
        match parseFloat? preco with
        | none => { a with erros := a.erros ++ [(idx, .conversao)] }
        | some pr =>
          if an < 0 ∨ hoje < an then
            { a with erros := a.erros ++ [(idx, .anoInvalido an)] }
          else if pr < 0 then
            { a with erros := a.erros ++ [(idx, .precoInvalido pr)] }
          else
            { a with
              qtdImportados := a.qtdImportados + 1,
              livros := a.livros ++ [⟨a.nextId, titulo, autor, an, pr⟩],
              nextId := a.nextId + 1 }
    | _ => { a with erros := a.erros ++ [(idx, .conversao)] }
  else a

/-- The API import loop, `enumerate(reader, start=2)`. -/
def laco_linhas_api (hoje : Int) :
    List (List String) → Nat → AcumApi → AcumApi
  | [], _, a => a
  | r :: rs, idx, a =>
    laco_linhas_api hoje rs (idx + 1) (passo_api hoje idx r a)

/-- `carregar_csv_api` (`app.py:274`): backup, then the loop; on a CSV with
no rows at all `next(reader)` raises and the surrounding `except` turns
it into a 400 error response, modelled as `none`.  On success returns
`(qtdImportados, erros, state)`. -/
def carregar_csv_api (hoje : Int) (t : Nat) (rows : List (List String))
    (st : Estado) : Option (Nat × List (Nat × MsgErro) × Estado) :=
  let st1 := fazer_backup t st
  match rows with
  | [] => none
  | _ :: dados =>
    let a := laco_linhas_api hoje dados 2 ⟨0, [], st1.livros, st1.nextId⟩
    some (a.qtdImportados, a.erros,
      { st1 with livros := a.livros, nextId := a.nextId })

/-! ### Spec-side notions (from the specification's words, for
comparison with the code) -/

/-- Case-insensitive (ASCII) prefix test. -/
def prefixoCI (p t : List Char) : Bool :=
  (p.map minusculaAscii).isPrefixOf (t.map minusculaAscii)

/-- Case-insensitive (ASCII) substring containment. -/
def contemCI (p : List Char) : List Char → Bool
  | [] => prefixoCI p []
  | t :: ts => prefixoCI p (t :: ts) || contemCI p ts

/-- Case-insensitive substring containment on strings. -/
def contemSubCI (p t : String) : Bool := contemCI p.toList t.toList

/-- Case-sensitive substring containment — the matching the spec claims
(`case-sensitive substring match`). -/
def contemCS (p : List Char) : List Char → Bool
  | [] => p.isEmpty
  | t :: ts => p.isPrefixOf (t :: ts) || contemCS p ts

/-- Case-sensitive substring containment on strings. -/
def contemSubCS (p t : String) : Bool := contemCS p.toList t.toList

/-! ### Lemmas: decimal rendering and parsing round-trip -/

theorem digitChar_toNat {d : Nat} (h : d < 10) : (digitChar d).toNat = 48 + d := by
  interval_cases d <;> rfl

theorem ehDigito_digitChar {d : Nat} (h : d < 10) : ehDigito (digitChar d) = true := by
  interval_cases d <;> rfl

theorem digitChar_ne_sub {d : Nat} (h : d < 10) : digitChar d ≠ '-' := by
  interval_cases d <;> decide

theorem valDigitos_aux (L : List Nat) :
    ∀ a : Nat, (∀ d ∈ L, d < 10) →
      ((L.map digitChar).reverse.foldl (fun a c => a * 10 + (c.toNat - 48)) a)
        = a * 10 ^ L.length + Nat.ofDigits 10 L := by
  induction L with
  | nil => intro a _; simp [Nat.ofDigits]
  | cons d ds ih =>
    intro a h
    have hd : d < 10 := h d (by simp)
    have hds : ∀ x ∈ ds, x < 10 := fun x hx => h x (by simp [hx])
    simp only [List.map_cons, List.reverse_cons, List.foldl_append,
      List.foldl_cons, List.foldl_nil]
    rw [ih a hds, digitChar_toNat hd, Nat.ofDigits_cons, List.length_cons,
      pow_succ]
    have h48 : 48 + d - 48 = d := by omega
    rw [h48]
    ring

theorem valDigitos_charsNat (n : Nat) : valDigitos (charsNat n) = n := by
  by_cases h : n = 0
  · subst h; rfl
  · unfold charsNat valDigitos
    rw [if_neg h,
      valDigitos_aux (Nat.digits 10 n) 0
        (fun d hd => Nat.digits_lt_base (by norm_num) hd),
      Nat.ofDigits_digits]
    simp

theorem charsNat_ne_nil (n : Nat) : charsNat n ≠ [] := by
  unfold charsNat
  by_cases h : n = 0
  · simp [h]
  · rw [if_neg h]
    simp [Nat.digits_ne_nil_iff_ne_zero.mpr h]

theorem charsNat_all_digitos (n : Nat) : (charsNat n).all ehDigito = true := by
  rw [List.all_eq_true]
  intro c hc
  unfold charsNat at hc
  by_cases h : n = 0
  · rw [if_pos h] at hc; simp at hc; subst hc; rfl
  · rw [if_neg h] at hc
    rw [List.mem_reverse, List.mem_map] at hc
    obtain ⟨d, hd, rfl⟩ := hc
    exact ehDigito_digitChar (Nat.digits_lt_base (by norm_num) hd)

theorem charsNat_head_ne_sub (n : Nat) :
    ∀ c r, charsNat n = c :: r → c ≠ '-' := by
  intro c r h hc
  have := charsNat_all_digitos n
  rw [h, hc] at this
  simp [ehDigito] at this

theorem parseNat?_charsNat (n : Nat) : parseNat? (charsNat n) = some n := by
  unfold parseNat?
  rw [if_pos ⟨charsNat_ne_nil n, charsNat_all_digitos n⟩, valDigitos_charsNat]

theorem parseInt?_mk_digitos (l : List Char) (h : l ≠ []) (h2 : l.all ehDigito) :
    parseInt? (String.mk l) = some ((valDigitos l : Int)) := by
  cases l with
  | nil => exact absurd rfl h
  | cons c r =>
    have hc : ehDigito c = true := by
      rw [List.all_eq_true] at h2; exact h2 c (by simp)
    have hcs : c ≠ '-' := by
      intro he; rw [he] at hc; simp [ehDigito] at hc
    unfold parseInt?
    have ht : (String.mk (c :: r)).toList = c :: r := rfl
    rw [ht]
    split
    · rename_i r2 heq
      exact absurd (List.cons.injEq .. ▸ heq).1 hcs
    · unfold parseNat?
      rw [if_pos ⟨by simp, h2⟩]
      rfl

theorem parseInt?_renderInt (n : Int) (h : 0 ≤ n) :
    parseInt? (renderInt n) = some n := by
  unfold renderInt
  rw [if_neg (by omega), renderNat,
    parseInt?_mk_digitos _ (charsNat_ne_nil _) (charsNat_all_digitos _),
    valDigitos_charsNat]
  congr 1
  omega

theorem takeWhile_digitos_append (ip fp : List Char)
    (h : ip.all ehDigito = true) :
    (ip ++ '.' :: fp).takeWhile ehDigito = ip ∧
      (ip ++ '.' :: fp).dropWhile ehDigito = '.' :: fp := by
  induction ip with
  | nil =>
    constructor <;>
      simp [List.takeWhile_cons, List.dropWhile_cons,
        show ehDigito '.' = false from rfl]
  | cons c cs ih =>
    rw [List.all_cons, Bool.and_eq_true] at h
    have h2 := ih h.2
    simp [List.takeWhile_cons, List.dropWhile_cons, h.1, h2.1, h2.2]

theorem parseFloatCorpo?_digitos (l : List Char) (h : l ≠ [])
    (h2 : l.all ehDigito = true) :
    parseFloatCorpo? l = some ((valDigitos l : ℚ)) := by
  have hdw : l.dropWhile ehDigito = [] := by
    rw [List.dropWhile_eq_nil_iff]
    rw [List.all_eq_true] at h2
    exact fun x hx => h2 x hx
  have htw : l.takeWhile ehDigito = l := by
    have hh := List.takeWhile_append_dropWhile (p := ehDigito) (l := l)
    rwa [hdw, List.append_nil] at hh
  unfold parseFloatCorpo?
  rw [hdw, htw]
  have hne : l.isEmpty = false := by
    cases l
    · exact absurd rfl h
    · rfl
  simp [hne]

theorem parseFloatCorpo?_decimal (ip fp : List Char) (h1 : ip ≠ [])
    (h2 : ip.all ehDigito = true) (h3 : fp.all ehDigito = true) :
    parseFloatCorpo? (ip ++ '.' :: fp)
      = some ((valDigitos ip : ℚ)
          + (valDigitos fp : ℚ) / (10 : ℚ) ^ fp.length) := by
  obtain ⟨htw, hdw⟩ := takeWhile_digitos_append ip fp h2
  unfold parseFloatCorpo?
  rw [hdw, htw]
  have hne : ip.isEmpty = false := by
    cases ip
    · exact absurd rfl h1
    · rfl
  simp [hne, h3]

theorem parseFloat?_mk_corpo (c : Char) (r : List Char)
    (hc : ehDigito c = true) :
    parseFloat? (String.mk (c :: r)) = parseFloatCorpo? (c :: r) := by
  have hcs : c ≠ '-' := by
    intro he; rw [he] at hc; simp [ehDigito] at hc
  unfold parseFloat?
  have ht : (String.mk (c :: r)).toList = c :: r := rfl
  rw [ht]
  split
  · rename_i r2 heq
    exact absurd (List.cons.injEq .. ▸ heq).1 hcs
  · rfl

theorem foldl_zeros (j : Nat) (rest : List Char) :
    (List.replicate j '0' ++ rest).foldl (fun a c => a * 10 + (c.toNat - 48)) 0
      = rest.foldl (fun a c => a * 10 + (c.toNat - 48)) 0 := by
  induction j with
  | zero => rfl
  | succ n ih =>
    rw [List.replicate_succ, List.cons_append, List.foldl_cons]
    simpa using ih

theorem valDigitos_charsFrac (k r : Nat) : valDigitos (charsFrac k r) = r := by
  unfold charsFrac valDigitos
  rw [foldl_zeros]
  exact valDigitos_charsNat r

theorem charsNat_length_le {r k : Nat} (hk : 0 < k) (hr : r < 10 ^ k) :
    (charsNat r).length ≤ k := by
  unfold charsNat
  by_cases h : r = 0
  · rw [if_pos h]; simpa using hk
  · rw [if_neg h]
    simp only [List.length_reverse, List.length_map]
    rw [Nat.digits_len 10 r (by norm_num) h]
    have := Nat.log_lt_of_lt_pow h hr
    omega

theorem charsFrac_length {k r : Nat} (hk : 0 < k) (hr : r < 10 ^ k) :
    (charsFrac k r).length = k := by
  unfold charsFrac
  rw [List.length_append, List.length_replicate]
  have := charsNat_length_le hk hr
  omega

theorem charsFrac_all_digitos (k r : Nat) :
    (charsFrac k r).all ehDigito = true := by
  unfold charsFrac
  rw [List.all_append, Bool.and_eq_true]
  refine ⟨?_, charsNat_all_digitos r⟩
  rw [List.all_eq_true]
  intro c hc
  rw [List.eq_of_mem_replicate hc]
  rfl

theorem expDec_spec {d : Nat} (h : d ∣ 10 ^ d) :
    ∃ k, expDec d = some k ∧ d ∣ 10 ^ k := by
  unfold expDec
  have hmem : d ∈ List.range (d + 1) := by simp
  have hs : ((List.range (d + 1)).find? (fun k => decide (d ∣ 10 ^ k))).isSome := by
    rw [List.find?_isSome]
    exact ⟨d, hmem, by simpa using h⟩
  obtain ⟨k, hk⟩ := Option.isSome_iff_exists.mp hs
  exact ⟨k, hk, by simpa using List.find?_some hk⟩

theorem parseFloat?_renderPreco (q : ℚ) (h0 : 0 ≤ q)
    (hdd : q.den ∣ 10 ^ q.den) :
    parseFloat? (renderPreco q) = some q := by
  obtain ⟨k, hk, hdvd⟩ := expDec_spec hdd
  have hcden : q.den * (10 ^ k / q.den) = 10 ^ k := Nat.mul_div_cancel' hdvd
  have hnum : 0 ≤ q.num := Rat.num_nonneg.mpr h0
  have hmz : (((q.num * ((10 ^ k / q.den : Nat) : Int)).toNat : Int))
      = q.num * ((10 ^ k / q.den : Nat) : Int) :=
    Int.toNat_of_nonneg (by positivity)
  have hdenq : ((q.den : ℚ)) ≠ 0 := by
    exact_mod_cast q.den_pos.ne'
  have hnumq : (q.num : ℚ) = q * q.den := by
    field_simp [Rat.num_div_den]
  have hmq : (((q.num * ((10 ^ k / q.den : Nat) : Int)).toNat : ℚ))
      = q * 10 ^ k := by
    calc (((q.num * ((10 ^ k / q.den : Nat) : Int)).toNat : ℚ))
        = (((q.num * ((10 ^ k / q.den : Nat) : Int)) : ℤ) : ℚ) := by
          exact_mod_cast congrArg (fun z : ℤ => (z : ℚ)) hmz
      _ = (q.num : ℚ) * (((10 ^ k / q.den : Nat) : ℤ) : ℚ) := by
          rw [Int.cast_mul]
      _ = (q.num : ℚ) * ((10 ^ k / q.den : Nat) : ℚ) := by
          rw [Int.cast_natCast]
      _ = q * q.den * ((10 ^ k / q.den : Nat) : ℚ) := by rw [hnumq]
      _ = q * ((q.den * (10 ^ k / q.den) : ℕ) : ℚ) := by
          rw [Nat.cast_mul]; ring
      _ = q * 10 ^ k := by rw [hcden, Nat.cast_pow]; norm_num
  simp only [renderPreco, hk]
  by_cases hk0 : k = 0
  · subst hk0
    rw [if_pos rfl, renderNat]
    rcases hc : charsNat ((q.num * ((10 ^ 0 / q.den : Nat) : Int)).toNat)
      with _ | ⟨c, r⟩
    · exact absurd hc (charsNat_ne_nil _)
    · have hcd : ehDigito c = true := by
        have := charsNat_all_digitos ((q.num * ((10 ^ 0 / q.den : Nat) : Int)).toNat)
        rw [hc, List.all_cons, Bool.and_eq_true] at this
        exact this.1
      rw [parseFloat?_mk_corpo c r hcd, ← hc,
        parseFloatCorpo?_digitos _ (charsNat_ne_nil _) (charsNat_all_digitos _),
        valDigitos_charsNat, hmq, pow_zero, mul_one]
  · rw [if_neg hk0]
    have hkpos : 0 < k := Nat.pos_of_ne_zero hk0
    have hstr :
        renderNat ((q.num * ((10 ^ k / q.den : Nat) : Int)).toNat / 10 ^ k)
            ++ "." ++
            String.mk (charsFrac k
              ((q.num * ((10 ^ k / q.den : Nat) : Int)).toNat % 10 ^ k))
          = String.mk
              (charsNat ((q.num * ((10 ^ k / q.den : Nat) : Int)).toNat / 10 ^ k)
                ++ '.' :: charsFrac k
                  ((q.num * ((10 ^ k / q.den : Nat) : Int)).toNat % 10 ^ k)) := by
      apply String.ext
      simp [renderNat, String.data_append]
    rw [hstr]
    rcases hc : charsNat ((q.num * ((10 ^ k / q.den : Nat) : Int)).toNat / 10 ^ k)
      with _ | ⟨c, r⟩
    · exact absurd hc (charsNat_ne_nil _)
    · have hcd : ehDigito c = true := by
        have := charsNat_all_digitos
          ((q.num * ((10 ^ k / q.den : Nat) : Int)).toNat / 10 ^ k)
        rw [hc, List.all_cons, Bool.and_eq_true] at this
        exact this.1
      rw [← hc]
      rw [show (String.mk (charsNat ((q.num * ((10 ^ k / q.den : Nat) : Int)).toNat / 10 ^ k)
          ++ '.' :: charsFrac k
            ((q.num * ((10 ^ k / q.den : Nat) : Int)).toNat % 10 ^ k)))
        = String.mk (c :: (r ++ '.' :: charsFrac k
            ((q.num * ((10 ^ k / q.den : Nat) : Int)).toNat % 10 ^ k))) from by
          rw [hc]; rfl]
      rw [parseFloat?_mk_corpo _ _ hcd]
      rw [show (c :: (r ++ '.' :: charsFrac k
            ((q.num * ((10 ^ k / q.den : Nat) : Int)).toNat % 10 ^ k)))
          = (charsNat ((q.num * ((10 ^ k / q.den : Nat) : Int)).toNat / 10 ^ k)
              ++ '.' :: charsFrac k
                ((q.num * ((10 ^ k / q.den : Nat) : Int)).toNat % 10 ^ k)) from by
          rw [hc]; rfl]
      rw [parseFloatCorpo?_decimal _ _ (charsNat_ne_nil _)
        (charsNat_all_digitos _) (charsFrac_all_digitos _ _)]
      have hmod : (q.num * ((10 ^ k / q.den : Nat) : Int)).toNat % 10 ^ k
          < 10 ^ k :=
        Nat.mod_lt _ (by positivity)
      rw [valDigitos_charsNat, valDigitos_charsFrac,
        charsFrac_length hkpos hmod]
      congr 1
      have hsplit :
          (10 ^ k) * ((q.num * ((10 ^ k / q.den : Nat) : Int)).toNat / 10 ^ k)
              + (q.num * ((10 ^ k / q.den : Nat) : Int)).toNat % 10 ^ k
            = (q.num * ((10 ^ k / q.den : Nat) : Int)).toNat :=
        Nat.div_add_mod _ _
      have hsplitq :
          ((10 : ℚ) ^ k)
              * (((q.num * ((10 ^ k / q.den : Nat) : Int)).toNat / 10 ^ k : ℕ) : ℚ)
              + (((q.num * ((10 ^ k / q.den : Nat) : Int)).toNat % 10 ^ k : ℕ) : ℚ)
            = (((q.num * ((10 ^ k / q.den : Nat) : Int)).toNat : ℕ) : ℚ) := by
        exact_mod_cast congrArg (fun n : ℕ => (n : ℚ)) hsplit
      have hP : (10 : ℚ) ^ k ≠ 0 := by positivity
      rw [hmq] at hsplitq
      rw [add_div' _ _ _ hP, div_eq_iff hP]
      linear_combination hsplitq

/-! ### Fixtures used by concrete counterexamples and witnesses -/

/-- The fixed three-book set of the specification's statistics example,
priced 10, 30 and 110. -/
def livros3 : List Livro :=
  [⟨1, "A", "X", 2000, 10⟩, ⟨2, "B", "Y", 2001, 30⟩, ⟨3, "C", "Z", 2002, 110⟩]

/-- A one-book store used by witnesses. -/
def stExemplo : Estado := ⟨[⟨1, "T", "A", 2000, 10⟩], 2, []⟩

/-- A two-author store used by the search theorems. -/
def stAutores : Estado :=
  ⟨[⟨1, "O Hobbit", "Tolkien", 1937, 50⟩,
    ⟨2, "Duna", "Herbert", 1965, 60⟩,
    ⟨3, "O Senhor", "Tolkien", 1954, 80⟩], 4, []⟩

/-! ### Claim theorems -/

/-- C10: on a CSV source with no rows at all, the unconditional
`next(reader)` raises `StopIteration` instead of returning a result of
zero imported rows; the CLI variant lets it escape uncaught
(`Except.error`), while the API variant's blanket `except` turns it into
an error response (`none`). -/
theorem csv_vazio_excecao (hoje : Int) (t : Nat) (st : Estado) :
    carregar_csv t [] st = Except.error (fazer_backup t st) ∧
    carregar_csv_api hoje t [] st = none :=
  ⟨rfl, rfl⟩

/-- C2 counterexample: on the fixed set priced 10/30/110 the statistics
query emits no row at all for the empty band `[50,100)` — `GROUP BY`
produces only occurring groups — so the claim that all four bands are
present (the empty one with count 0) is false. -/
theorem distribuicao_sem_faixa_vazia :
    ¬ ("R$ 50-100" ∈ (distribuicao_precos livros3).map Prod.fst) ∧
    (distribuicao_precos livros3).length ≠ 4 := by
  decide

/-- C2 (amended): on the fixed set priced 10/30/110 the price-band query
returns exactly the three non-empty bands, each with count 1 — the empty
band `[50,100)` is absent from the result — and the report's mean price
is exactly 50. -/
theorem estatisticas_livros3 :
    distribuicao_precos livros3 =
      [("Acima de R$ 100", 1), ("Até R$ 20", 1), ("R$ 20-50", 1)] ∧
    preco_medio livros3 = 50 := by
  constructor
  · decide
  · show valor_total livros3 / ((livros3.length : ℕ) : ℚ) = 50
    norm_num [valor_total, livros3]

/-- C4: `adicionar_livro` with an out-of-range year, and
`adicionar_livro`/`atualizar_preco` with a negative price, fail (return
`False` / HTTP 400) and leave the state — book set and backups alike —
completely unchanged: validation runs before the backup and the insert
or update. -/
theorem validacao_ano_preco (hoje : Int) (t : Nat)
    (titulo autor ano preco : String) (id : Nat) (st : Estado)
    (a : Int) (p : ℚ) :
    (parseInt? ano = some a → (a < 0 ∨ hoje < a) →
      adicionar_livro hoje t titulo autor ano preco st = (false, st)) ∧
    (parseFloat? preco = some p → p < 0 →
      adicionar_livro hoje t titulo autor ano preco st = (false, st)) ∧
    (parseFloat? preco = some p → p < 0 →
      atualizar_preco t id preco st = (false, st)) := by
  refine ⟨?_, ?_, ?_⟩
  · intro ha hrange
    cases hp : parseFloat? preco <;>
      simp [adicionar_livro, ha, hp, hrange]
  · intro hp hneg
    cases ha : parseInt? ano with
    | none => simp [adicionar_livro, ha, hp]
    | some a2 =>
      by_cases hr : a2 < 0 ∨ hoje < a2 <;>
        simp [adicionar_livro, ha, hp, hr, hneg]
  · intro hp hneg
    simp [atualizar_preco, hp, hneg]

/-- C4 witness: a year beyond the current year 2025, and negative
prices, are rejected without touching the (empty) store. -/
theorem validacao_ano_preco_witness :
    adicionar_livro 2025 0 "T" "A" "2026" "5" estadoInicial
      = (false, estadoInicial) ∧
    adicionar_livro 2025 0 "T" "A" "2000" "-3" estadoInicial
      = (false, estadoInicial) ∧
    atualizar_preco 0 1 "-3" estadoInicial = (false, estadoInicial) :=
  ⟨(validacao_ano_preco 2025 0 "T" "A" "2026" "5" 1 estadoInicial 2026 5).1
      (by decide) (by decide),
   (validacao_ano_preco 2025 0 "T" "A" "2000" "-3" 1 estadoInicial 2000
      (-3)).2.1 (by decide) (by decide),
   (validacao_ano_preco 2025 0 "T" "A" "2000" "-3" 1 estadoInicial 2000
      (-3)).2.2 (by decide) (by decide)⟩

/-- C5: `atualizar_preco` (with a parseable, non-negative price) and
`remover_livro` on an id absent from the store fail and leave the book
set exactly as it was; the only side effect is the backup snapshot taken
before the lookup. -/
theorem nao_encontrado_sem_efeito (t : Nat) (id : Nat) (preco : String)
    (st : Estado) (p : ℚ) :
    parseFloat? preco = some p → 0 ≤ p → (∀ l ∈ st.livros, l.id ≠ id) →
    atualizar_preco t id preco st = (false, fazer_backup t st) ∧
    remover_livro t id st = (false, fazer_backup t st) ∧
    (fazer_backup t st).livros = st.livros := by
  intro hp hpos hid
  have hfind : (fazer_backup t st).livros.find? (fun l => l.id == id)
      = none := by
    rw [List.find?_eq_none]
    intro l hl
    simpa using hid l hl
  refine ⟨?_, ?_, rfl⟩
  · simp [atualizar_preco, hp, not_lt.mpr hpos, hfind]
  · simp [remover_livro, hfind]

/-- C5 witness: updating or removing the absent id 2 in a one-book store
fails and leaves the single book in place. -/
theorem nao_encontrado_sem_efeito_witness :
    atualizar_preco 7 2 "5" stExemplo = (false, fazer_backup 7 stExemplo) ∧
    remover_livro 7 2 stExemplo = (false, fazer_backup 7 stExemplo) ∧
    (fazer_backup 7 stExemplo).livros = stExemplo.livros :=
  nao_encontrado_sem_efeito 7 2 "5" stExemplo 5 (by decide) (by decide)
    (by decide)

/-- C9 counterexample: `adicionar_livro` happily inserts a record whose
title and author are both the empty string — no non-emptiness validation
exists in the repository (only the CLI menu pre-checks its own input), so
the claimed invariant is false. -/
theorem titulo_vazio_inserido :
    (adicionar_livro 2025 0 "" "" "2000" "10" estadoInicial).1 = true ∧
    (adicionar_livro 2025 0 "" "" "2000" "10" estadoInicial).2.livros
      = [⟨1, "", "", 2000, 10⟩] := by
  decide

/-- C9 (amended): `adicionar_livro` validates only year and price.
Whenever those pass, the record is inserted with exactly the given title
and author — empty strings included; title/author non-emptiness is
enforced nowhere in the repository layer. -/
theorem adicionar_sem_validar_titulo (hoje : Int) (t : Nat)
    (titulo autor ano preco : String) (st : Estado) (a : Int) (p : ℚ) :
    parseInt? ano = some a → parseFloat? preco = some p →
    ¬(a < 0 ∨ hoje < a) → ¬p < 0 →
    adicionar_livro hoje t titulo autor ano preco st =
      (true,
        { fazer_backup t st with
          livros := st.livros ++ [⟨st.nextId, titulo, autor, a, p⟩],
          nextId := st.nextId + 1 }) := by
  intro ha hp h1 h2
  simp [adicionar_livro, ha, hp, h1, h2]
  exact ⟨rfl, rfl⟩

/-- C9 witness: the record inserted for empty title and author. -/
theorem adicionar_sem_validar_titulo_witness :
    adicionar_livro 2025 0 "" "" "2000" "10" estadoInicial =
      (true,
        { fazer_backup 0 estadoInicial with
          livros := estadoInicial.livros
            ++ [⟨estadoInicial.nextId, "", "", 2000, 10⟩],
          nextId := estadoInicial.nextId + 1 }) :=
  adicionar_sem_validar_titulo 2025 0 "" "" "2000" "10" estadoInicial 2000 10
    (by decide) (by decide) (by decide) (by decide)

/-- C8: a CSV row with fewer than 5 fields is silently skipped by
both import variants: the accumulator — imported count, stored books, and (in
the API variant) the error list — is returned untouched. -/
theorem linha_curta_ignorada (row : List String) (hoje : Int) (idx : Nat)
    (a : AcumCli) (b : AcumApi) :
    row.length < 5 →
    passo_cli row a = a ∧ passo_api hoje idx row b = b := by
  intro h
  constructor
  · unfold passo_cli
    rw [if_neg (by omega)]
  · unfold passo_api
    rw [if_neg (by omega)]

/-- C8 witness: a 2-field row leaves both import accumulators unchanged. -/
theorem linha_curta_ignorada_witness :
    passo_cli ["1", "So Titulo"] ⟨0, [], 1⟩ = ⟨0, [], 1⟩ ∧
    passo_api 2025 2 ["1", "So Titulo"] ⟨0, [], [], 1⟩ = ⟨0, [], [], 1⟩ :=
  linha_curta_ignorada ["1", "So Titulo"] 2025 2 ⟨0, [], 1⟩ ⟨0, [], [], 1⟩
    (by decide)

/-- C1 counterexample: the CLI `carregar_csv` applies no range
validation at all — a row with price `-5`, which `adicionar_livro`
rejects, is inserted and counted as imported rather than skipped. -/
theorem cli_importa_sem_validacao :
    carregar_csv 0
        [["ID", "T", "A", "Ano", "P"], ["2", "T2", "A2", "1999", "-5"]]
        estadoInicial
      = Except.ok (1, ⟨[⟨1, "T2", "A2", 1999, -5⟩], 2, [(0, [])]⟩) ∧
    (adicionar_livro 2025 0 "T2" "A2" "1999" "-5" estadoInicial).1 = false := by
  constructor
  · rfl
  · decide

/-- C1 (amended, API variant): per data row of exactly five fields, the
API import accepts the row exactly when `adicionar_livro` would accept
its fields — on acceptance it inserts the parsed record and counts it,
on rejection it leaves the store and the count untouched and records
exactly one error carrying that row's line number.  Consequently a CSV
with one well-formed row and one row with a non-numeric price yields
an imported count of 1, the single inserted record, and exactly one error
entry naming line 3. -/
theorem api_valida_como_adicionar (hoje : Int) :
    (∀ (idx : Nat) (b : AcumApi) (i0 titulo autor ano preco : String),
      ((adicionar_livro hoje 0 titulo autor ano preco estadoInicial).1 = true →
        ∃ a p, parseInt? ano = some a ∧ parseFloat? preco = some p ∧
          passo_api hoje idx [i0, titulo, autor, ano, preco] b
            = { b with
                qtdImportados := b.qtdImportados + 1,
                livros := b.livros ++ [⟨b.nextId, titulo, autor, a, p⟩],
                nextId := b.nextId + 1 }) ∧
      ((adicionar_livro hoje 0 titulo autor ano preco estadoInicial).1 = false →
        ∃ e, passo_api hoje idx [i0, titulo, autor, ano, preco] b
            = { b with erros := b.erros ++ [(idx, e)] })) ∧
    (∀ (t : Nat) (st : Estado) (hdr : List String)
        (i0 titulo autor ano preco i1 t1 a1 ano1 preco1 : String)
        (a : Int) (p : ℚ) (a1v : Int),
      parseInt? ano = some a → parseFloat? preco = some p →
      ¬(a < 0 ∨ hoje < a) → ¬p < 0 →
      parseInt? ano1 = some a1v → parseFloat? preco1 = none →
      carregar_csv_api hoje t
          [hdr, [i0, titulo, autor, ano, preco], [i1, t1, a1, ano1, preco1]]
          st
        = some (1, [(3, MsgErro.conversao)],
            { fazer_backup t st with
              livros := st.livros ++ [⟨st.nextId, titulo, autor, a, p⟩],
              nextId := st.nextId + 1 })) := by
  constructor
  · intro idx b i0 titulo autor ano preco
    constructor
    · intro hok
      cases ha : parseInt? ano with
      | none => simp [adicionar_livro, ha] at hok
      | some a =>
        cases hp : parseFloat? preco with
        | none => simp [adicionar_livro, ha, hp] at hok
        | some p =>
          by_cases h1 : a < 0 ∨ hoje < a
          · simp [adicionar_livro, ha, hp, h1] at hok
          · by_cases h2 : p < 0
            · simp [adicionar_livro, ha, hp, h1, h2] at hok
            · exact ⟨a, p, rfl, rfl, by simp [passo_api, ha, hp, h1, h2]⟩
    · intro hko
      cases ha : parseInt? ano with
      | none => exact ⟨.conversao, by simp [passo_api, ha]⟩
      | some a =>
        cases hp : parseFloat? preco with
        | none => exact ⟨.conversao, by simp [passo_api, ha, hp]⟩
        | some p =>
          by_cases h1 : a < 0 ∨ hoje < a
          · exact ⟨.anoInvalido a, by simp [passo_api, ha, hp, h1]⟩
          · by_cases h2 : p < 0
            · exact ⟨.precoInvalido p, by simp [passo_api, ha, hp, h1, h2]⟩
            · simp [adicionar_livro, ha, hp, h1, h2] at hko
  · intro t st hdr i0 titulo autor ano preco i1 t1 a1 ano1 preco1 a p a1v
      ha hp h1 h2 ha1 hp1
    simp only [carregar_csv_api, laco_linhas_api]
    rw [show passo_api hoje 2 [i0, titulo, autor, ano, preco]
        ⟨0, [], (fazer_backup t st).livros, (fazer_backup t st).nextId⟩
      = ⟨1, [],
          (fazer_backup t st).livros
            ++ [⟨(fazer_backup t st).nextId, titulo, autor, a, p⟩],
          (fazer_backup t st).nextId + 1⟩ from by
        simp [passo_api, ha, hp, h1, h2]]
    rw [show passo_api hoje 3 [i1, t1, a1, ano1, preco1]
        ⟨1, [],
          (fazer_backup t st).livros
            ++ [⟨(fazer_backup t st).nextId, titulo, autor, a, p⟩],
          (fazer_backup t st).nextId + 1⟩
      = ⟨1, [(3, MsgErro.conversao)],
          (fazer_backup t st).livros
            ++ [⟨(fazer_backup t st).nextId, titulo, autor, a, p⟩],
          (fazer_backup t st).nextId + 1⟩ from by
        simp [passo_api, ha1, hp1]]
    rfl

/-- C1 witness: a valid row is accepted exactly as `adicionar_livro`
accepts it; a rejected row records one line-numbered error; the
two-data-row CSV with one non-numeric price imports one book and records
one error for line 3. -/
theorem api_valida_como_adicionar_witness :
    (∃ a p, parseInt? "2000" = some a ∧ parseFloat? "10" = some p ∧
      passo_api 2025 2 ["1", "T", "A", "2000", "10"]
          (⟨0, [], [], 1⟩ : AcumApi)
        = { (⟨0, [], [], 1⟩ : AcumApi) with
            qtdImportados := 0 + 1,
            livros := [] ++ [⟨1, "T", "A", a, p⟩],
            nextId := 1 + 1 }) ∧
    (∃ e, passo_api 2025 3 ["2", "U", "B", "1999", "x"]
          (⟨0, [], [], 1⟩ : AcumApi)
        = { (⟨0, [], [], 1⟩ : AcumApi) with
            erros := [] ++ [(3, e)] }) ∧
    carregar_csv_api 2025 0
        [["ID", "T", "A", "Ano", "P"], ["1", "T", "A", "2000", "10"],
          ["2", "U", "B", "1999", "x"]]
        estadoInicial
      = some (1, [(3, MsgErro.conversao)],
          { fazer_backup 0 estadoInicial with
            livros := estadoInicial.livros ++ [⟨estadoInicial.nextId, "T", "A", 2000, 10⟩],
            nextId := estadoInicial.nextId + 1 }) :=
  ⟨((api_valida_como_adicionar 2025).1 2 ⟨0, [], [], 1⟩
      "1" "T" "A" "2000" "10").1 (by decide),
   ((api_valida_como_adicionar 2025).1 3 ⟨0, [], [], 1⟩
      "2" "U" "B" "1999" "x").2 (by decide),
   (api_valida_como_adicionar 2025).2 0 estadoInicial
      ["ID", "T", "A", "Ano", "P"] "1" "T" "A" "2000" "10"
      "2" "U" "B" "1999" "x" 2000 10 1999
      (by decide) (by decide) (by decide) (by decide) (by decide) (by decide)⟩

/-- One backup step turns a directory whose timestamps are the first 5
of the strictly descending `ps` into one holding the first 5 of
`t :: ps`, provided `t` is newer than everything in `ps`. -/
theorem fazer_backup_passo (t : Nat) (st : Estado) (ps : List Nat)
    (hgt : ∀ v ∈ ps, v < t) (hps : List.Sorted (· > ·) ps)
    (hmap : st.backups.map Prod.fst = ps.take 5) :
    (fazer_backup t st).backups.map Prod.fst = (t :: ps).take 5 := by
  have hmem : ∀ e ∈ st.backups, e.1 ∈ ps := by
    intro e he
    have h1 : e.1 ∈ ps.take 5 := by
      rw [← hmap]; exact List.mem_map_of_mem Prod.fst he
    exact List.take_subset 5 ps h1
  unfold fazer_backup limpar_backups_antigos
  have hfilter : st.backups.filter (fun e => ¬ e.1 = t) = st.backups := by
    rw [List.filter_eq_self]
    intro e he
    have := hgt e.1 (hmem e he)
    simp
    omega
  rw [hfilter]
  have hpair5 : List.Sorted (· > ·) (ps.take 5) :=
    List.Pairwise.sublist (List.take_sublist 5 ps) hps
  have hpairb : List.Pairwise
      (fun a b : Nat × List Livro => b.1 ≤ a.1) st.backups := by
    have h1 : List.Pairwise (· > ·) (st.backups.map Prod.fst) := by
      rw [hmap]; exact hpair5
    rw [List.pairwise_map] at h1
    exact h1.imp (fun h => le_of_lt h)
  have hsorted : List.Sorted (fun a b : Nat × List Livro => b.1 ≤ a.1)
      ((t, st.livros) :: st.backups) := by
    rw [List.sorted_cons]
    refine ⟨?_, hpairb⟩
    intro b hb
    exact le_of_lt (hgt b.1 (hmem b hb))
  rw [List.Sorted.insertionSort_eq hsorted, List.map_take, List.map_cons,
    hmap]
  show List.take 5 (t :: List.take 5 ps) = List.take 5 (t :: ps)
  rw [List.take_succ_cons, List.take_succ_cons, List.take_take]
  norm_num

/-- Folding backup steps with strictly increasing timestamps over a
directory holding the newest-first prefix of `ps` yields the directory
holding the 5 newest overall. -/
theorem backups_fold_aux (ts : List Nat) :
    ∀ (st : Estado) (ps : List Nat),
      List.Sorted (· < ·) ts →
      (∀ u ∈ ts, ∀ v ∈ ps, v < u) →
      List.Sorted (· > ·) ps →
      st.backups.map Prod.fst = ps.take 5 →
      ((ts.foldl (fun s u => fazer_backup u s) st).backups.map Prod.fst
        = (ts.reverse ++ ps).take 5) := by
  induction ts with
  | nil => intro st ps _ _ _ h; simpa using h
  | cons t ts ih =>
    intro st ps hsort hgt hps hmap
    rw [List.sorted_cons] at hsort
    rw [List.foldl_cons]
    have hstep := fazer_backup_passo t st ps
      (fun v hv => hgt t (by simp) v hv) hps hmap
    have hgt2 : ∀ u ∈ ts, ∀ v ∈ t :: ps, v < u := by
      intro u hu v hv
      rcases List.mem_cons.mp hv with h | h
      · subst h; exact hsort.1 u hu
      · exact lt_trans (hgt t (by simp) v h) (hsort.1 u hu)
    have hps2 : List.Sorted (· > ·) (t :: ps) := by
      rw [List.sorted_cons]
      exact ⟨fun b hb => hgt t (by simp) b hb, hps⟩
    have h := ih (fazer_backup t st) (t :: ps) hsort.2 hgt2 hps2 hstep
    rw [List.reverse_cons, List.append_assoc]
    simpa using h

/-- C7: after every snapshot operation at most 5 backup files exist;
and starting from an empty backup directory, a run of more than 5
snapshot-taking operations with strictly increasing modification times
leaves exactly 5 snapshots — the 5 most recently created ones (the
timestamp list's last five, newest first). -/
theorem backups_retencao (t0 : Nat) (st0 : Estado) (ts : List Nat)
    (st : Estado) :
    ((fazer_backup t0 st0).backups.length ≤ 5) ∧
    (st.backups = [] → List.Sorted (· < ·) ts → 5 < ts.length →
      ((ts.foldl (fun s u => fazer_backup u s) st).backups.map Prod.fst
          = ts.reverse.take 5 ∧
        (ts.foldl (fun s u => fazer_backup u s) st).backups.length = 5)) := by
  constructor
  · unfold fazer_backup limpar_backups_antigos
    simp [List.length_take]
  · intro hb hs hlen
    have h := backups_fold_aux ts st [] hs (by simp) (by simp)
      (by rw [hb]; rfl)
    rw [List.append_nil] at h
    refine ⟨h, ?_⟩
    have h2 := congrArg List.length h
    rw [List.length_map, List.length_take, List.length_reverse] at h2
    omega

/-- C7 witness: six snapshots at times 1..6 leave exactly the five
snapshots stamped 6,5,4,3,2. -/
theorem backups_retencao_witness :
    (([1, 2, 3, 4, 5, 6].foldl (fun s u => fazer_backup u s)
        estadoInicial).backups.map Prod.fst
      = [1, 2, 3, 4, 5, 6].reverse.take 5) ∧
    (([1, 2, 3, 4, 5, 6].foldl (fun s u => fazer_backup u s)
        estadoInicial).backups.length = 5) :=
  (backups_retencao 0 estadoInicial [1, 2, 3, 4, 5, 6] estadoInicial).2
    rfl (by decide) (by decide)

/-! ### `LIKE` versus substring containment -/

theorem casaLike_pct (ps : List Char) (ts : List Char) :
    casaLike ('%' :: ps) ts = true ↔
      ∃ n, casaLike ps (ts.drop n) = true := by
  show (List.range (ts.length + 1)).any (fun n => casaLike ps (ts.drop n))
      = true ↔ _
  rw [List.any_eq_true]
  constructor
  · rintro ⟨n, _, hn⟩
    exact ⟨n, hn⟩
  · rintro ⟨n, hn⟩
    by_cases h : n ≤ ts.length
    · exact ⟨n, List.mem_range.mpr (by omega), hn⟩
    · refine ⟨ts.length, List.mem_range.mpr (by omega), ?_⟩
      have h1 : ts.drop n = [] := List.drop_eq_nil_of_le (by omega)
      have h2 : ts.drop ts.length = [] := List.drop_eq_nil_of_le le_rfl
      rw [h2]
      rw [h1] at hn
      exact hn

theorem casaLike_litPct (p : List Char)
    (hp : ∀ c ∈ p, ¬ c = '%' ∧ ¬ c = '_') :
    ∀ ts, casaLike (p ++ ['%']) ts = prefixoCI p ts := by
  induction p with
  | nil =>
    intro ts
    rw [List.nil_append]
    have h : casaLike ('%' :: []) ts = true :=
      (casaLike_pct [] ts).mpr
        ⟨ts.length, by rw [List.drop_length]; rfl⟩
    rw [h]
    unfold prefixoCI
    rw [List.map_nil]
    cases List.map minusculaAscii ts <;> rfl
  | cons c p ih =>
    have hc := hp c (by simp)
    have hptail : ∀ x ∈ p, ¬ x = '%' ∧ ¬ x = '_' :=
      fun x hx => hp x (by simp [hx])
    intro ts
    cases ts with
    | nil =>
      rw [List.cons_append]
      show (if c = '%' then _ else _) = prefixoCI (c :: p) []
      rw [if_neg hc.1]
      rfl
    | cons t ts =>
      rw [List.cons_append]
      show (if c = '%' then _ else _) = prefixoCI (c :: p) (t :: ts)
      rw [if_neg hc.1]
      show ((if c = '_' then true
          else minusculaAscii c == minusculaAscii t)
            && casaLike (p ++ ['%']) ts)
        = prefixoCI (c :: p) (t :: ts)
      rw [if_neg hc.2, ih hptail ts]
      rfl

theorem contemCI_drop (p : List Char) :
    ∀ t, (contemCI p t = true ↔ ∃ n, prefixoCI p (t.drop n) = true) := by
  intro t
  induction t with
  | nil =>
    constructor
    · intro h; exact ⟨0, h⟩
    · rintro ⟨n, hn⟩; rwa [List.drop_nil] at hn
  | cons c t ih =>
    constructor
    · intro h
      rcases Bool.or_eq_true .. |>.mp h with h | h
      · exact ⟨0, h⟩
      · obtain ⟨n, hn⟩ := ih.mp h
        exact ⟨n + 1, by simpa [List.drop_succ_cons] using hn⟩
    · rintro ⟨n, hn⟩
      show (prefixoCI p (c :: t) || contemCI p t) = true
      rw [Bool.or_eq_true]
      cases n with
      | zero => exact Or.inl (by simpa using hn)
      | succ n =>
        exact Or.inr (ih.mpr ⟨n, by simpa [List.drop_succ_cons] using hn⟩)

/-- On wildcard-free patterns, the `LIKE '%p%'` filter used by
`buscar_por_autor` is exactly ASCII-case-insensitive substring
containment. -/
theorem like_contem (p : String)
    (hp : ∀ c ∈ p.toList, ¬ c = '%' ∧ ¬ c = '_') (t : String) :
    like ("%" ++ p ++ "%") t = contemSubCI p t := by
  unfold like contemSubCI
  have htl : ("%" ++ p ++ "%").toList = '%' :: (p.toList ++ ['%']) := by
    show (("%" ++ p ++ "%").data) = '%' :: (p.data ++ ['%'])
    rw [String.data_append, String.data_append]
    rfl
  rw [htl]
  show casaLike ('%' :: (p.toList ++ ['%'])) t.toList
    = contemCI p.toList t.toList
  have h1 : casaLike ('%' :: (p.toList ++ ['%'])) t.toList = true ↔
      ∃ n, prefixoCI p.toList (t.toList.drop n) = true := by
    rw [casaLike_pct]
    constructor
    · rintro ⟨n, hn⟩
      exact ⟨n, by rwa [casaLike_litPct p.toList hp] at hn⟩
    · rintro ⟨n, hn⟩
      exact ⟨n, by rwa [casaLike_litPct p.toList hp]⟩
  have h2 := contemCI_drop p.toList t.toList
  exact Bool.eq_iff_iff.mpr (h1.trans h2.symm)

instance : IsTotal Livro (fun a b => a.titulo ≤ b.titulo) :=
  ⟨fun a b => le_total a.titulo b.titulo⟩

instance : IsTrans Livro (fun a b => a.titulo ≤ b.titulo) :=
  ⟨fun _ _ _ h1 h2 => le_trans h1 h2⟩

/-- C3 (amended): for a wildcard-free pattern, `buscar_por_autor`
returns exactly the stored books whose author contains the pattern as an
ASCII-case-INsensitive substring (SQLite's default `LIKE`), ordered by
title; when nothing matches it returns the empty list — never an
error. -/
theorem buscar_por_autor_especificacao (st : Estado) (p : String)
    (hp : ∀ c ∈ p.toList, ¬ c = '%' ∧ ¬ c = '_') :
    List.Sorted (fun a b : Livro => a.titulo ≤ b.titulo)
      (buscar_por_autor p st) ∧
    (∀ l : Livro,
      l ∈ buscar_por_autor p st ↔
        l ∈ st.livros ∧ contemSubCI p l.autor = true) ∧
    ((∀ l ∈ st.livros, contemSubCI p l.autor = false) →
      buscar_por_autor p st = []) := by
  have hperm : List.Perm (buscar_por_autor p st)
      (st.livros.filter (fun l => like ("%" ++ p ++ "%") l.autor)) :=
    List.perm_insertionSort _ _
  have hmem : ∀ l : Livro,
      l ∈ buscar_por_autor p st ↔
        l ∈ st.livros ∧ contemSubCI p l.autor = true := by
    intro l
    rw [hperm.mem_iff, List.mem_filter, like_contem p hp l.autor]
  refine ⟨List.sorted_insertionSort _ _, hmem, ?_⟩
  intro hnone
  rw [List.eq_nil_iff_forall_not_mem]
  intro l hl
  have h := (hmem l).mp hl
  rw [hnone l h.1] at h
  exact absurd h.2 (by simp)

/-- C3 witness: searching the two-author store for `tolkien` (no
wildcards) is sorted by title and returns exactly the case-insensitive
matches. -/
theorem buscar_por_autor_especificacao_witness :
    List.Sorted (fun a b : Livro => a.titulo ≤ b.titulo)
      (buscar_por_autor "tolkien" stAutores) ∧
    (∀ l : Livro,
      l ∈ buscar_por_autor "tolkien" stAutores ↔
        l ∈ stAutores.livros ∧ contemSubCI "tolkien" l.autor = true) ∧
    ((∀ l ∈ stAutores.livros, contemSubCI "tolkien" l.autor = false) →
      buscar_por_autor "tolkien" stAutores = []) :=
  buscar_por_autor_especificacao stAutores "tolkien" (by decide)

/-- C3 counterexample: the pattern `tolkien` matches the author
`Tolkien` through SQLite's ASCII-case-insensitive `LIKE`, so the search
returns a book even though no stored author contains the pattern as a
case-sensitive substring — the claimed case-sensitive semantics is
false. -/
theorem busca_nao_diferencia_maiusculas :
    (⟨1, "O Hobbit", "Tolkien", 1937, 50⟩ : Livro)
        ∈ buscar_por_autor "tolkien" stAutores ∧
    stAutores.livros.filter (fun l => contemSubCS "tolkien" l.autor)
      = [] := by
  constructor
  · have hperm : List.Perm (buscar_por_autor "tolkien" stAutores)
        (stAutores.livros.filter
          (fun l => like ("%" ++ "tolkien" ++ "%") l.autor)) :=
      List.perm_insertionSort _ _
    rw [hperm.mem_iff]
    decide
  · decide

/-! ### CSV export/import round trip -/

/-- Importing the CSV row written for a valid book inserts a book with
the same four fields under the next fresh id. -/
theorem passo_cli_linhaCsv (l : Livro) (a : AcumCli)
    (h1 : 0 ≤ l.ano_publicacao) (h2 : 0 ≤ l.preco)
    (h3 : l.preco.den ∣ 10 ^ l.preco.den) :
    passo_cli (linhaCsv l) a =
      ⟨a.qtdImportados + 1,
        a.livros ++ [⟨a.nextId, l.titulo, l.autor, l.ano_publicacao, l.preco⟩],
        a.nextId + 1⟩ := by
  have hi := parseInt?_renderInt l.ano_publicacao h1
  have hf := parseFloat?_renderPreco l.preco h2 h3
  simp [passo_cli, linhaCsv, hi, hf]

/-- Folding the CLI import loop over the rows exported for a valid book
list imports every row and preserves all four fields in order. -/
theorem fold_linhas_export (livros : List Livro) :
    ∀ a : AcumCli,
      (∀ l ∈ livros, 0 ≤ l.ano_publicacao ∧ 0 ≤ l.preco ∧
        l.preco.den ∣ 10 ^ l.preco.den) →
      (((livros.map linhaCsv).foldl (fun a r => passo_cli r a) a).qtdImportados
          = a.qtdImportados + livros.length) ∧
      (((livros.map linhaCsv).foldl (fun a r => passo_cli r a) a).livros.map
            campos
          = a.livros.map campos ++ livros.map campos) := by
  induction livros with
  | nil => intro a _; simp
  | cons l ls ih =>
    intro a h
    have hl := h l (by simp)
    rw [List.map_cons, List.foldl_cons,
      passo_cli_linhaCsv l a hl.1 hl.2.1 hl.2.2]
    have hih := ih
      ⟨a.qtdImportados + 1,
        a.livros ++ [⟨a.nextId, l.titulo, l.autor, l.ano_publicacao, l.preco⟩],
        a.nextId + 1⟩
      (fun x hx => h x (by simp [hx]))
    constructor
    · rw [hih.1]
      simp
      omega
    · rw [hih.2]
      simp [campos]

/-- C6: exporting a non-empty valid book list to CSV and importing the
resulting file into an empty store yields the same number of books with
identical title, author, year and price, in order (ids are reassigned).
Validity is the data-model invariant: year and price non-negative, the
price an exactly-representable decimal (as every float is). -/
theorem exportar_importar_roundtrip (livros : List Livro) (t : Nat)
    (hne : livros ≠ [])
    (hval : ∀ l ∈ livros, 0 ≤ l.ano_publicacao ∧ 0 ≤ l.preco ∧
      l.preco.den ∣ 10 ^ l.preco.den) :
    ∃ rows n st, exportar_para_csv livros = some rows ∧
      carregar_csv t rows estadoInicial = Except.ok (n, st) ∧
      n = livros.length ∧
      st.livros.map campos = livros.map campos := by
  obtain ⟨x, xs, rfl⟩ : ∃ x xs, livros = x :: xs := by
    cases livros with
    | nil => exact absurd rfl hne
    | cons x xs => exact ⟨x, xs, rfl⟩
  have hfold := fold_linhas_export (x :: xs) ⟨0, [], 1⟩ hval
  refine ⟨cabecalhoCsv :: (x :: xs).map linhaCsv,
    (((x :: xs).map linhaCsv).foldl (fun a r => passo_cli r a)
      ⟨0, [], 1⟩).qtdImportados,
    { fazer_backup t estadoInicial with
      livros := (((x :: xs).map linhaCsv).foldl (fun a r => passo_cli r a)
        ⟨0, [], 1⟩).livros,
      nextId := (((x :: xs).map linhaCsv).foldl (fun a r => passo_cli r a)
        ⟨0, [], 1⟩).nextId },
    rfl, rfl, ?_, ?_⟩
  · rw [hfold.1]
    simp
  · exact hfold.2.trans (by simp)

/-- C6 witness: the three-book fixture survives the export/import round
trip field-for-field. -/
theorem exportar_importar_roundtrip_witness :
    ∃ rows n st, exportar_para_csv livros3 = some rows ∧
      carregar_csv 0 rows estadoInicial = Except.ok (n, st) ∧
      n = livros3.length ∧
      st.livros.map campos = livros3.map campos :=
  exportar_importar_roundtrip livros3 0 (by decide) (by decide)

end Livraria
